import Mathlib

/-!
Verification of the CPF validation core of the workout_api repository
(`src/workout_api/atleta/controller.py`, functions `limpar_cpf` and
`validar_cpf`).

Shallow embedding conventions:
* Python strings are Lean `String`s (lists of characters).
* `limpar_cpf` keeps exactly the ASCII decimal digits, as the regex
  `re.sub(r"[^0-9]", "", cpf)` does; `Char.isDigit` tests precisely
  `'0' ≤ c ≤ '9'`.
* Inside `validar_cpf` every `int(cpf[i])` is modelled by `pyDigitAt`:
  an out-of-range index or a non-digit character yields `none`
  (a Python exception), so `validar_cpf` returns `Option Bool`;
  `none` models an uncaught exception, `some b` a normal return.
* The final comparison `cpf[-2:] == f"{digito1}{digito2}"` is modelled
  on the character level with `Nat.repr` playing the role of the
  f-string rendering of the two computed check digits.
-/

/-- Embedding of `limpar_cpf` (controller.py lines 227-229):
`re.sub(r"[^0-9]", "", cpf)` keeps exactly the decimal-digit characters. -/
def limpar_cpf (cpf : String) : String := String.mk (cpf.data.filter Char.isDigit)

/-- Numeric value of a digit character, the result of Python `int(c)`
for a character `'0'..'9'`. -/
def digitVal (c : Char) : Nat := c.toNat - 48

/-- The shared check-digit rule of lines 247 and 252:
`0 if resto < 2 else 11 - resto`. -/
def checkDigit (resto : Nat) : Nat := if resto < 2 then 0 else 11 - resto

/-- Python `int(cpf[i])`: `none` when the index is out of range
(IndexError) or the character is not a decimal digit (ValueError). -/
def pyDigitAt (cpf : List Char) (i : Nat) : Option Nat :=
  match cpf.get? i with
  | none => none
  | some c => if c.isDigit then some (digitVal c) else none

/-- `sum(int(cpf[i]) * (w - i) for i in range(n))` with the error cases of
`int` propagated (lines 245 and 250 use `w = 10, n = 9` and `w = 11, n = 10`). -/
def somaRange (cpf : List Char) (w : Nat) : Nat → Option Nat
  | 0 => some 0
  | n + 1 => do
    let s ← somaRange cpf w n
    let d ← pyDigitAt cpf n
    pure (s + d * (w - n))

/-- Body of `validar_cpf` (lines 234-255) after the initial
re-normalization, acting on the cleaned character list.
`cpf[0]` on line 241 is only reached when the length is exactly 11,
so the `headD` default is never used. -/
def validar_core (cpf : List Char) : Option Bool :=
  if cpf.length ≠ 11 then some false
  else if cpf = List.replicate 11 (cpf.headD ' ') then some false
  else do
    let soma1 ← somaRange cpf 10 9
    let digito1 := checkDigit (soma1 % 11)
    let soma2 ← somaRange cpf 11 10
    let digito2 := checkDigit (soma2 % 11)
    some (decide (cpf.drop 9 = (Nat.repr digito1).data ++ (Nat.repr digito2).data))

/-- Embedding of `validar_cpf` (lines 232-255): the function first
re-normalizes its argument (`cpf = limpar_cpf(cpf)`, line 234). -/
def validar_cpf (cpf : String) : Option Bool := validar_core (limpar_cpf cpf).data

/-- Total digit-level weighted sum `Σ_{i<n} ds[i] * (w - i)`, the value
`somaRange` computes once all characters are known to be digits. -/
def somaPesos (ds : List Nat) (w : Nat) : Nat → Nat
  | 0 => 0
  | n + 1 => somaPesos ds w n + ds.getD n 0 * (w - n)

/-- Spec-side checksum validator on digit sequences, following the spec's
§4.2 algorithm literally: step 4 computes the second verification digit
over the original 9 digits with the just-computed `check1` appended
conceptually as digit 9 (`ds.take 9 ++ [check1]`), not over the actual
digit 9 of the input as the code does. -/
def checksum_valid_spec (ds : List Nat) : Bool :=
  if ds.length ≠ 11 then false
  else if ds = List.replicate 11 (ds.headD 0) then false
  else
    let check1 := checkDigit (somaPesos ds 10 9 % 11)
    let check2 := checkDigit (somaPesos (ds.take 9 ++ [check1]) 11 10 % 11)
    decide (ds.getD 9 0 = check1 ∧ ds.getD 10 0 = check2)

/-- Spec-side `is_valid` on strings: normalize, then run the spec's
checksum algorithm on the digit values. -/
def is_valid_spec (s : String) : Bool :=
  checksum_valid_spec ((limpar_cpf s).data.map digitVal)

/-! ### Basic facts about characters and digits -/

lemma limpar_cpf_data (s : String) :
    (limpar_cpf s).data = s.data.filter Char.isDigit := rfl

lemma limpar_all_digits (s : String) :
    ∀ c ∈ (limpar_cpf s).data, c.isDigit = true :=
  fun _ hc => (List.mem_filter.mp hc).2

lemma isDigit_bounds (c : Char) (h : c.isDigit = true) :
    48 ≤ c.toNat ∧ c.toNat ≤ 57 := by
  simpa [Char.isDigit] using h

lemma digitVal_le_9 (c : Char) (h : c.isDigit = true) : digitVal c ≤ 9 := by
  obtain ⟨h1, h2⟩ := isDigit_bounds c h
  simp only [digitVal]
  omega

lemma repr_of_digit (d : Nat) (hd : d ≤ 9) :
    (Nat.repr d).data = [Char.ofNat (48 + d)] := by
  interval_cases d <;> rfl

lemma char_eq_of_digitVal (c : Char) (d : Nat) (hc : c.isDigit = true) (_hd : d ≤ 9)
    (h : digitVal c = d) : c = Char.ofNat (48 + d) := by
  obtain ⟨h1, h2⟩ := isDigit_bounds c hc
  have ht : c.toNat = 48 + d := by
    simp only [digitVal] at h
    omega
  rw [← Char.ofNat_toNat c, ht]

lemma digitVal_ofNat (d : Nat) (hd : d ≤ 9) : digitVal (Char.ofNat (48 + d)) = d := by
  interval_cases d <;> rfl

lemma isDigit_ofNat (d : Nat) (hd : d ≤ 9) : (Char.ofNat (48 + d)).isDigit = true := by
  interval_cases d <;> rfl

lemma digitVal_inj (c c' : Char) (hc : c.isDigit = true) (hc' : c'.isDigit = true) :
    digitVal c = digitVal c' ↔ c = c' := by
  constructor
  · intro h
    rw [char_eq_of_digitVal c (digitVal c') hc (digitVal_le_9 c' hc') h,
      ← char_eq_of_digitVal c' (digitVal c') hc' (digitVal_le_9 c' hc') rfl]
  · intro h
    rw [h]

lemma checkDigit_le_9 (r : Nat) : checkDigit r ≤ 9 := by
  simp only [checkDigit]
  split <;> omega

lemma pair_eq_iff (c9 c10 : Char) (d1 d2 : Nat) (h9 : c9.isDigit = true)
    (h10 : c10.isDigit = true) (hd1 : d1 ≤ 9) (hd2 : d2 ≤ 9) :
    ([c9, c10] = (Nat.repr d1).data ++ (Nat.repr d2).data) ↔
      (digitVal c9 = d1 ∧ digitVal c10 = d2) := by
  rw [repr_of_digit d1 hd1, repr_of_digit d2 hd2]
  simp only [List.cons_append, List.nil_append, List.cons.injEq, and_true]
  constructor
  · rintro ⟨rfl, rfl⟩
    exact ⟨digitVal_ofNat d1 hd1, digitVal_ofNat d2 hd2⟩
  · rintro ⟨hv1, hv2⟩
    exact ⟨char_eq_of_digitVal _ _ h9 hd1 hv1, char_eq_of_digitVal _ _ h10 hd2 hv2⟩

/-! ### Evaluation of `validar_core` on an 11-digit input -/

lemma validar_core_eval (l : List Char) (hlen : l.length = 11)
    (hdig : ∀ c ∈ l, c.isDigit = true) :
    validar_core l = some (decide (l ≠ List.replicate 11 (l.headD ' ') ∧
      digitVal (l.getD 9 ' ') = checkDigit (somaPesos (l.map digitVal) 10 9 % 11) ∧
      digitVal (l.getD 10 ' ') = checkDigit (somaPesos (l.map digitVal) 11 10 % 11))) := by
  rcases l with _|⟨c0,_|⟨c1,_|⟨c2,_|⟨c3,_|⟨c4,_|⟨c5,_|⟨c6,_|⟨c7,_|⟨c8,_|⟨c9,_|⟨c10,_|⟨c11,l⟩⟩⟩⟩⟩⟩⟩⟩⟩⟩⟩⟩ <;>
    simp only [List.length] at hlen <;> try omega
  simp only [List.mem_cons, List.not_mem_nil, or_false, forall_eq_or_imp,
    forall_eq] at hdig
  obtain ⟨h0, h1, h2, h3, h4, h5, h6, h7, h8, h9, h10⟩ := hdig
  have hS1 : somaRange [c0,c1,c2,c3,c4,c5,c6,c7,c8,c9,c10] 10 9 =
      some (somaPesos ([c0,c1,c2,c3,c4,c5,c6,c7,c8,c9,c10].map digitVal) 10 9) := by
    simp [somaRange, pyDigitAt, somaPesos, h0, h1, h2, h3, h4, h5, h6, h7, h8]
  have hS2 : somaRange [c0,c1,c2,c3,c4,c5,c6,c7,c8,c9,c10] 11 10 =
      some (somaPesos ([c0,c1,c2,c3,c4,c5,c6,c7,c8,c9,c10].map digitVal) 11 10) := by
    simp [somaRange, pyDigitAt, somaPesos, h0, h1, h2, h3, h4, h5, h6, h7, h8, h9]
  by_cases hrep : [c0,c1,c2,c3,c4,c5,c6,c7,c8,c9,c10] =
      List.replicate 11 ([c0,c1,c2,c3,c4,c5,c6,c7,c8,c9,c10].headD ' ')
  · rw [validar_core, if_neg (by simp), if_pos hrep]
    refine congrArg some ?_
    exact (decide_eq_false (fun h => h.1 hrep)).symm
  · rw [validar_core]
    rw [if_neg (by simp), if_neg hrep]
    rw [hS1, hS2]
    simp only [Option.bind_eq_bind, Option.some_bind, Option.some.injEq]
    rw [show ([c0,c1,c2,c3,c4,c5,c6,c7,c8,c9,c10].drop 9) = [c9, c10] from rfl]
    rw [decide_eq_decide]
    rw [pair_eq_iff c9 c10 _ _ h9 h10 (checkDigit_le_9 _) (checkDigit_le_9 _)]
    constructor
    · rintro ⟨ha, hb⟩
      exact ⟨hrep, ha, hb⟩
    · rintro ⟨-, ha, hb⟩
      exact ⟨ha, hb⟩

/-! ### The modulo-11 collision analysis for single-digit mutations -/

set_option maxRecDepth 100000 in
lemma core_mod : ∀ (w δ r1 r2 : Fin 11),
    2 ≤ w.val → w.val ≤ 9 → w.val ≠ 5 → δ.val ≠ 0 →
    ¬(checkDigit ((r1.val + δ.val * w.val) % 11) = checkDigit r1.val ∧
      checkDigit ((r2.val + δ.val * (w.val + 1)) % 11) = checkDigit r2.val) := by
  decide

lemma core_mod' (w δ r1 r2 : Nat) (hw2 : 2 ≤ w) (hw9 : w ≤ 9) (hw5 : w ≠ 5)
    (hδ : δ < 11) (hδ0 : δ ≠ 0) (hr1 : r1 < 11) (hr2 : r2 < 11) :
    ¬(checkDigit ((r1 + δ * w) % 11) = checkDigit r1 ∧
      checkDigit ((r2 + δ * (w + 1)) % 11) = checkDigit r2) :=
  core_mod ⟨w, by omega⟩ ⟨δ, hδ⟩ ⟨r1, hr1⟩ ⟨r2, hr2⟩ hw2 hw9 hw5 hδ0

lemma final_absurd (w dOld dNew S1 T1 S2 T2 : Nat)
    (k1 : checkDigit (T1 % 11) = checkDigit (S1 % 11))
    (k2 : checkDigit (T2 % 11) = checkDigit (S2 % 11))
    (hw2 : 2 ≤ w) (hw9 : w ≤ 9) (hw5 : w ≠ 5)
    (hOld : dOld ≤ 9) (hNew : dNew ≤ 9) (hne : dNew ≠ dOld)
    (hrel1 : T1 + dOld * w = S1 + dNew * w)
    (hrel2 : T2 + dOld * (w + 1) = S2 + dNew * (w + 1)) : False := by
  have hC1 : (dNew + 11 - dOld) * w + dOld * w = dNew * w + 11 * w := by
    rw [← Nat.add_mul, Nat.sub_add_cancel (by omega), Nat.add_mul]
  have hC2 : (dNew + 11 - dOld) * (w + 1) + dOld * (w + 1) =
      dNew * (w + 1) + 11 * (w + 1) := by
    rw [← Nat.add_mul, Nat.sub_add_cancel (by omega), Nat.add_mul]
  have hD1 : (((dNew + 11 - dOld) % 11) * w) % 11 = ((dNew + 11 - dOld) * w) % 11 :=
    Nat.mod_mul_mod
  have hD2 : (((dNew + 11 - dOld) % 11) * (w + 1)) % 11 =
      ((dNew + 11 - dOld) * (w + 1)) % 11 :=
    Nat.mod_mul_mod
  refine core_mod' w ((dNew + 11 - dOld) % 11) (S1 % 11) (S2 % 11)
    hw2 hw9 hw5 (Nat.mod_lt _ (by omega)) (by omega)
    (Nat.mod_lt _ (by omega)) (Nat.mod_lt _ (by omega)) ⟨?_, ?_⟩
  · rw [show (S1 % 11 + (dNew + 11 - dOld) % 11 * w) % 11 = T1 % 11 from by omega]
    exact k1
  · rw [show (S2 % 11 + (dNew + 11 - dOld) % 11 * (w + 1)) % 11 = T2 % 11 from by omega]
    exact k2

/-! ### Single-digit mutations of a valid CPF -/

lemma digits_set (l : List Char) (i : Nat) (x : Char)
    (hdig : ∀ c ∈ l, c.isDigit = true) (hx : x.isDigit = true) :
    ∀ c ∈ l.set i x, c.isDigit = true := by
  intro c hc
  rcases List.mem_or_eq_of_mem_set hc with h | rfl
  · exact hdig c h
  · exact hx

lemma length_of_valid (l : List Char) (h : validar_core l = some true) :
    l.length = 11 := by
  by_contra hne
  rw [validar_core, if_pos hne] at h
  simp at h

lemma mutation_core (l : List Char) (i e : Nat) (hlen : l.length = 11)
    (hdig : ∀ c ∈ l, c.isDigit = true) (hvalid : validar_core l = some true)
    (hi : i < 11) (h0 : i ≠ 0) (h5 : i ≠ 5) (he : e ≤ 9)
    (hdiff : e ≠ digitVal (l.getD i ' ')) :
    validar_core (l.set i (Char.ofNat (48 + e))) = some false := by
  have hdig' := digits_set l i (Char.ofNat (48 + e)) hdig (isDigit_ofNat e he)
  have hlen' : (l.set i (Char.ofNat (48 + e))).length = 11 := by
    rw [List.length_set]
    exact hlen
  rw [validar_core_eval _ hlen' hdig']
  refine congrArg some (decide_eq_false ?_)
  rintro ⟨-, hA', hB'⟩
  rw [validar_core_eval l hlen hdig] at hvalid
  obtain ⟨-, hA, hB⟩ := of_decide_eq_true (Option.some.inj hvalid)
  rcases l with _|⟨c0,_|⟨c1,_|⟨c2,_|⟨c3,_|⟨c4,_|⟨c5,_|⟨c6,_|⟨c7,_|⟨c8,_|⟨c9,_|⟨c10,_|⟨c11,l⟩⟩⟩⟩⟩⟩⟩⟩⟩⟩⟩⟩ <;>
    simp only [List.length] at hlen <;> try omega
  simp only [List.mem_cons, List.not_mem_nil, or_false, forall_eq_or_imp,
    forall_eq] at hdig
  obtain ⟨hd0, hd1, hd2, hd3, hd4, hd5, hd6, hd7, hd8, hd9, hd10⟩ := hdig
  interval_cases i
  · exact absurd rfl h0
  · simp only [List.set, List.getD_cons_zero, List.getD_cons_succ, List.map_cons,
      List.map_nil, somaPesos, digitVal_ofNat e he] at hA hB hA' hB' hdiff
    exact final_absurd 9 (digitVal c1) e _ _ _ _ (hA'.symm.trans hA) (hB'.symm.trans hB)
      (by norm_num) (by norm_num) (by norm_num) (digitVal_le_9 c1 hd1) he hdiff
      (by omega) (by omega)
  · simp only [List.set, List.getD_cons_zero, List.getD_cons_succ, List.map_cons,
      List.map_nil, somaPesos, digitVal_ofNat e he] at hA hB hA' hB' hdiff
    exact final_absurd 8 (digitVal c2) e _ _ _ _ (hA'.symm.trans hA) (hB'.symm.trans hB)
      (by norm_num) (by norm_num) (by norm_num) (digitVal_le_9 c2 hd2) he hdiff
      (by omega) (by omega)
  · simp only [List.set, List.getD_cons_zero, List.getD_cons_succ, List.map_cons,
      List.map_nil, somaPesos, digitVal_ofNat e he] at hA hB hA' hB' hdiff
    exact final_absurd 7 (digitVal c3) e _ _ _ _ (hA'.symm.trans hA) (hB'.symm.trans hB)
      (by norm_num) (by norm_num) (by norm_num) (digitVal_le_9 c3 hd3) he hdiff
      (by omega) (by omega)
  · simp only [List.set, List.getD_cons_zero, List.getD_cons_succ, List.map_cons,
      List.map_nil, somaPesos, digitVal_ofNat e he] at hA hB hA' hB' hdiff
    exact final_absurd 6 (digitVal c4) e _ _ _ _ (hA'.symm.trans hA) (hB'.symm.trans hB)
      (by norm_num) (by norm_num) (by norm_num) (digitVal_le_9 c4 hd4) he hdiff
      (by omega) (by omega)
  · exact absurd rfl h5
  · simp only [List.set, List.getD_cons_zero, List.getD_cons_succ, List.map_cons,
      List.map_nil, somaPesos, digitVal_ofNat e he] at hA hB hA' hB' hdiff
    exact final_absurd 4 (digitVal c6) e _ _ _ _ (hA'.symm.trans hA) (hB'.symm.trans hB)
      (by norm_num) (by norm_num) (by norm_num) (digitVal_le_9 c6 hd6) he hdiff
      (by omega) (by omega)
  · simp only [List.set, List.getD_cons_zero, List.getD_cons_succ, List.map_cons,
      List.map_nil, somaPesos, digitVal_ofNat e he] at hA hB hA' hB' hdiff
    exact final_absurd 3 (digitVal c7) e _ _ _ _ (hA'.symm.trans hA) (hB'.symm.trans hB)
      (by norm_num) (by norm_num) (by norm_num) (digitVal_le_9 c7 hd7) he hdiff
      (by omega) (by omega)
  · simp only [List.set, List.getD_cons_zero, List.getD_cons_succ, List.map_cons,
      List.map_nil, somaPesos, digitVal_ofNat e he] at hA hB hA' hB' hdiff
    exact final_absurd 2 (digitVal c8) e _ _ _ _ (hA'.symm.trans hA) (hB'.symm.trans hB)
      (by norm_num) (by norm_num) (by norm_num) (digitVal_le_9 c8 hd8) he hdiff
      (by omega) (by omega)
  · simp only [List.set, List.getD_cons_zero, List.getD_cons_succ, List.map_cons,
      List.map_nil, somaPesos, digitVal_ofNat e he] at hA hA' hdiff
    exact hdiff (hA'.trans hA.symm)
  · simp only [List.set, List.getD_cons_zero, List.getD_cons_succ, List.map_cons,
      List.map_nil, somaPesos, digitVal_ofNat e he] at hB hB' hdiff
    exact hdiff (hB'.trans hB.symm)

/-! ### Normalization facts -/

lemma limpar_idempotent (s : String) : limpar_cpf (limpar_cpf s) = limpar_cpf s :=
  congrArg String.mk (List.filter_eq_self.mpr (limpar_all_digits s))

lemma replicate_bridge (l : List Char) :
    (∃ c, l = List.replicate 11 c) ↔ l = List.replicate 11 (l.headD ' ') := by
  constructor
  · rintro ⟨c, rfl⟩
    simp [List.replicate_succ]
  · intro h
    exact ⟨_, h⟩

lemma valid_iff_checks (s : String) (hlen : (limpar_cpf s).data.length = 11)
    (hrep : ¬ ∃ c, (limpar_cpf s).data = List.replicate 11 c) :
    (validar_cpf s = some true ↔
      (digitVal ((limpar_cpf s).data.getD 9 ' ') =
         checkDigit (somaPesos ((limpar_cpf s).data.map digitVal) 10 9 % 11) ∧
       digitVal ((limpar_cpf s).data.getD 10 ' ') =
         checkDigit (somaPesos ((limpar_cpf s).data.map digitVal) 11 10 % 11))) := by
  rw [validar_cpf, validar_core_eval _ hlen (limpar_all_digits s)]
  simp only [Option.some.injEq, decide_eq_true_eq]
  constructor
  · rintro ⟨-, ha, hb⟩
    exact ⟨ha, hb⟩
  · rintro ⟨ha, hb⟩
    exact ⟨fun h => hrep ((replicate_bridge _).mpr h), ha, hb⟩

lemma count_filter_eq (l : List Char) (p : Char → Bool) (c : Char) :
    (l.filter p).count c = if p c then l.count c else 0 := by
  by_cases hc : p c = true
  · rw [if_pos hc]
    exact List.count_filter hc
  · rw [if_neg hc]
    simp [List.count_eq_zero, List.mem_filter, hc]

/-! ### The claims -/

/-- C4: `validar_cpf` normalizes internally: for every string `x`,
`validar_cpf x = validar_cpf (limpar_cpf x)`; in particular the raw
formatted identifier `"123.456.789-09"` is judged exactly as its
digits-only projection `"12345678909"`. -/
theorem c4_validar_normalizes_internally :
    (∀ x : String, validar_cpf x = validar_cpf (limpar_cpf x)) ∧
      validar_cpf "123.456.789-09" = validar_cpf "12345678909" := by
  constructor
  · intro x
    show validar_core (limpar_cpf x).data = validar_core (limpar_cpf (limpar_cpf x)).data
    rw [limpar_idempotent]
  · decide

/-- C5: for all strings `x`, `validar_cpf x` is `false` whenever the
normalized form does not have exactly 11 characters. -/
theorem c5_wrong_length_rejected (x : String) (h : (limpar_cpf x).length ≠ 11) :
    validar_cpf x = some false := by
  rw [validar_cpf, validar_core,
    if_pos (show (limpar_cpf x).data.length ≠ 11 from h)]

/-- Witness for C5 at the empty string and at a purely alphabetic string. -/
theorem c5_wrong_length_rejected_witness :
    ((limpar_cpf "").length ≠ 11 ∧ validar_cpf "" = some false) ∧
      ((limpar_cpf "abc").length ≠ 11 ∧ validar_cpf "abc" = some false) :=
  ⟨⟨by decide, c5_wrong_length_rejected "" (by decide)⟩,
   ⟨by decide, c5_wrong_length_rejected "abc" (by decide)⟩⟩

/-- C6: every 11-character string made of one repeated character is
rejected: if the character is a digit, the all-identical check fires;
otherwise normalization empties the string and the length check fires. -/
theorem c6_repeated_digits_rejected (c : Char) :
    validar_cpf (String.mk (List.replicate 11 c)) = some false := by
  have hdata : (limpar_cpf (String.mk (List.replicate 11 c))).data =
      (List.replicate 11 c).filter Char.isDigit := rfl
  by_cases hc : c.isDigit = true
  · have hfil : (List.replicate 11 c).filter Char.isDigit = List.replicate 11 c :=
      List.filter_eq_self.mpr fun a ha => by
        rw [List.eq_of_mem_replicate ha]
        exact hc
    rw [validar_cpf]
    rw [show (limpar_cpf (String.mk (List.replicate 11 c))).data = List.replicate 11 c
      from hdata.trans hfil]
    rw [validar_core, if_neg (by simp), if_pos (by simp [List.replicate_succ])]
  · have hfil : (List.replicate 11 c).filter Char.isDigit = [] := by
      rw [List.filter_eq_nil_iff]
      intro a ha
      rw [List.eq_of_mem_replicate ha]
      exact hc
    rw [validar_cpf]
    rw [show (limpar_cpf (String.mk (List.replicate 11 c))).data = [] from hdata.trans hfil]
    rw [validar_core, if_pos (by simp)]

/-- C7: `limpar_cpf` returns exactly the decimal-digit characters of its
input in order: the result is a sublist of the input, contains only
digits, keeps every digit occurrence (and nothing else), and is never
longer than the input. -/
theorem c7_limpar_is_digit_projection (s : String) :
    (limpar_cpf s).data.Sublist s.data ∧
      (limpar_cpf s).data.all Char.isDigit = true ∧
      (∀ c : Char, (limpar_cpf s).data.count c =
        if c.isDigit then s.data.count c else 0) ∧
      (limpar_cpf s).length ≤ s.length := by
  refine ⟨List.filter_sublist s.data, ?_, ?_, List.length_filter_le Char.isDigit s.data⟩
  · rw [List.all_eq_true]
    exact limpar_all_digits s
  · intro c
    exact count_filter_eq s.data Char.isDigit c

/-- C8: concrete vectors: `"529.982.247-25"` normalizes to
`"52998224725"` and is valid; `"111.111.111-11"` is invalid (degenerate);
`"123.456.789-00"` normalizes to `"12345678900"` and fails the checksum. -/
theorem c8_concrete_vectors :
    limpar_cpf "529.982.247-25" = "52998224725" ∧
      validar_cpf "529.982.247-25" = some true ∧
      validar_cpf "111.111.111-11" = some false ∧
      limpar_cpf "123.456.789-00" = "12345678900" ∧
      validar_cpf "123.456.789-00" = some false := by
  refine ⟨?_, ?_, ?_, ?_, ?_⟩ <;> decide

/-- C9: `validar_cpf` is total and never reaches its exception branches:
on every string it returns `some` boolean (never `none`, the model of a
Python exception), and after internal normalization every character the
checksum loops index and convert with `int` is a decimal digit. -/
theorem c9_total_no_exceptions (s : String) :
    (validar_cpf s).isSome = true ∧
      (limpar_cpf s).data.all Char.isDigit = true := by
  constructor
  · by_cases h : (limpar_cpf s).data.length = 11
    · rw [validar_cpf, validar_core_eval _ h (limpar_all_digits s)]
      rfl
    · rw [validar_cpf, validar_core, if_pos h]
      rfl
  · rw [List.all_eq_true]
    exact limpar_all_digits s

/-- C1: for every input whose normalized form has exactly 11 digits, not
all identical, `validar_cpf` returns `some true` exactly when digit 9
matches the first verification digit (weighted sum with weights `10 - i`
over digits 0..8, `checkDigit` of the remainder mod 11) and digit 10
matches the second (weights `11 - i` over digits 0..9). -/
theorem c1_checksum_characterization (s : String)
    (hlen : (limpar_cpf s).data.length = 11)
    (hrep : ¬ ∃ c, (limpar_cpf s).data = List.replicate 11 c) :
    (validar_cpf s = some true ↔
      (digitVal ((limpar_cpf s).data.getD 9 ' ') =
         checkDigit (somaPesos ((limpar_cpf s).data.map digitVal) 10 9 % 11) ∧
       digitVal ((limpar_cpf s).data.getD 10 ' ') =
         checkDigit (somaPesos ((limpar_cpf s).data.map digitVal) 11 10 % 11))) :=
  valid_iff_checks s hlen hrep

/-- Witness for C1 at the known-valid CPF `"52998224725"`. -/
theorem c1_checksum_characterization_witness :
    validar_cpf "52998224725" = some true := by
  have hlen : (limpar_cpf "52998224725").data.length = 11 := by decide
  have hne : (limpar_cpf "52998224725").data ≠
      List.replicate 11 ((limpar_cpf "52998224725").data.headD ' ') := by decide
  have h := c1_checksum_characterization "52998224725" hlen
    (fun hex => hne ((replicate_bridge _).mp hex))
  exact h.mpr ⟨by decide, by decide⟩

/-- Helper: length of the decimal rendering of a single digit. -/
lemma repr_len_one (d : Nat) (hd : d ≤ 9) : (Nat.repr d).length = 1 := by
  show (Nat.repr d).data.length = 1
  rw [repr_of_digit d hd]
  rfl

/-- C10: for every input that reaches the checksum computation (11
digits, not all identical) the two computed check digits lie in `0..9`,
the rendered pair has exactly two characters, and the code's final
string comparison coincides with digit-wise equality of the two check
digits. -/
theorem c10_check_digits_well_formed (s : String)
    (hlen : (limpar_cpf s).data.length = 11)
    (hrep : ¬ ∃ c, (limpar_cpf s).data = List.replicate 11 c) :
    checkDigit (somaPesos ((limpar_cpf s).data.map digitVal) 10 9 % 11) ≤ 9 ∧
      checkDigit (somaPesos ((limpar_cpf s).data.map digitVal) 11 10 % 11) ≤ 9 ∧
      (Nat.repr (checkDigit (somaPesos ((limpar_cpf s).data.map digitVal) 10 9 % 11)) ++
        Nat.repr (checkDigit (somaPesos ((limpar_cpf s).data.map digitVal) 11 10 % 11))).length
        = 2 ∧
      (validar_cpf s = some true ↔
        (digitVal ((limpar_cpf s).data.getD 9 ' ') =
           checkDigit (somaPesos ((limpar_cpf s).data.map digitVal) 10 9 % 11) ∧
         digitVal ((limpar_cpf s).data.getD 10 ' ') =
           checkDigit (somaPesos ((limpar_cpf s).data.map digitVal) 11 10 % 11))) := by
  refine ⟨checkDigit_le_9 _, checkDigit_le_9 _, ?_, valid_iff_checks s hlen hrep⟩
  rw [String.length_append, repr_len_one _ (checkDigit_le_9 _),
    repr_len_one _ (checkDigit_le_9 _)]

/-- Witness for C10 at the known-valid CPF `"52998224725"`. -/
theorem c10_check_digits_well_formed_witness :
    (Nat.repr (checkDigit (somaPesos ((limpar_cpf "52998224725").data.map digitVal) 10 9 % 11)) ++
      Nat.repr (checkDigit (somaPesos ((limpar_cpf "52998224725").data.map digitVal) 11 10 % 11))).length
      = 2 := by
  have hlen : (limpar_cpf "52998224725").data.length = 11 := by decide
  have hne : (limpar_cpf "52998224725").data ≠
      List.replicate 11 ((limpar_cpf "52998224725").data.headD ' ') := by decide
  exact (c10_check_digits_well_formed "52998224725" hlen
    (fun hex => hne ((replicate_bridge _).mp hex))).2.2.1

/-! ### Equivalence with the spec's step-4 formulation -/

lemma getD_map_digit (l : List Char) (n : Nat) :
    (l.map digitVal).getD n 0 = digitVal (l.getD n ' ') := by
  induction l generalizing n with
  | nil =>
    simp only [List.map_nil, List.getD_nil]
    decide
  | cons a t ih =>
    cases n with
    | zero => simp
    | succ n => simpa using ih n

lemma getD_take (ds : List Nat) (m k : Nat) (h : k < m) :
    (ds.take m).getD k 0 = ds.getD k 0 := by
  induction ds generalizing m k with
  | nil => simp
  | cons a t ih =>
    cases m with
    | zero => omega
    | succ m =>
      cases k with
      | zero => simp
      | succ k => simpa using ih m k (by omega)

lemma somaPesos_eq_of_getD (ds es : List Nat) (w n : Nat)
    (h : ∀ k < n, ds.getD k 0 = es.getD k 0) :
    somaPesos ds w n = somaPesos es w n := by
  induction n with
  | zero => rfl
  | succ n ih =>
    rw [somaPesos, somaPesos, ih (fun k hk => h k (by omega)), h n (by omega)]

lemma spec_sum (ds : List Nat) (x : Nat) (h9 : 9 ≤ ds.length) :
    somaPesos (ds.take 9 ++ [x]) 11 10 = somaPesos ds 11 9 + x * 2 := by
  have htl : (ds.take 9).length = 9 := by
    rw [List.length_take]
    omega
  show somaPesos _ 11 (9 + 1) = _
  rw [somaPesos]
  congr 1
  · refine somaPesos_eq_of_getD _ _ _ _ (fun k hk => ?_)
    rw [List.getD_append _ _ _ _ (by omega), getD_take ds 9 k hk]
  · rw [List.getD_append_right _ _ _ _ (by omega), htl]
    simp

lemma code_sum (ds : List Nat) :
    somaPesos ds 11 10 = somaPesos ds 11 9 + ds.getD 9 0 * 2 := by
  show somaPesos _ 11 (9 + 1) = _
  rw [somaPesos]

lemma rep_digit_char (l : List Char) (hlen : l.length = 11)
    (hdig : ∀ c ∈ l, c.isDigit = true) :
    (l.map digitVal = List.replicate 11 ((l.map digitVal).headD 0)) ↔
      l = List.replicate 11 (l.headD ' ') := by
  rcases l with _ | ⟨a, t⟩
  · simp at hlen
  · simp only [List.map_cons, List.headD_cons]
    rw [List.eq_replicate_iff, List.eq_replicate_iff]
    constructor
    · rintro ⟨-, hAll⟩
      refine ⟨hlen, fun b hb => ?_⟩
      exact (digitVal_inj b a (hdig b hb) (hdig a (List.mem_cons_self a t))).mp
        (hAll (digitVal b) (List.mem_map_of_mem digitVal hb))
    · rintro ⟨-, hAll⟩
      refine ⟨by simpa using hlen, fun v hv => ?_⟩
      rw [← List.map_cons] at hv
      obtain ⟨b, hb, rfl⟩ := List.mem_map.mp hv
      rw [hAll b hb]

lemma core_spec (l : List Char) (hlen : l.length = 11)
    (hdig : ∀ c ∈ l, c.isDigit = true) :
    validar_core l = some (checksum_valid_spec (l.map digitVal)) := by
  rw [validar_core_eval l hlen hdig]
  refine congrArg some ?_
  rw [checksum_valid_spec]
  rw [if_neg (by simp [hlen])]
  by_cases hrep : l = List.replicate 11 (l.headD ' ')
  · rw [if_pos ((rep_digit_char l hlen hdig).mpr hrep)]
    exact decide_eq_false fun h => h.1 hrep
  · rw [if_neg (fun h => hrep ((rep_digit_char l hlen hdig).mp h))]
    rw [decide_eq_decide]
    have h9 : 9 ≤ (l.map digitVal).length := by simp [hlen]
    constructor
    · rintro ⟨-, ha, hb⟩
      have ha' : (l.map digitVal).getD 9 0 =
          checkDigit (somaPesos (l.map digitVal) 10 9 % 11) := by
        rw [getD_map_digit]
        exact ha
      refine ⟨ha', ?_⟩
      rw [getD_map_digit, spec_sum _ _ h9, ← ha', ← code_sum]
      exact hb
    · rintro ⟨ha, hb⟩
      have ha' : digitVal (l.getD 9 ' ') =
          checkDigit (somaPesos (l.map digitVal) 10 9 % 11) := by
        rw [← getD_map_digit]
        exact ha
      refine ⟨hrep, ha', ?_⟩
      rw [spec_sum _ _ h9, ← ha, ← code_sum] at hb
      rw [← getD_map_digit]
      exact hb

/-- C2: on every normalized 11-digit input the code's way of computing
the second verification digit (over the actual first 10 digits) and the
spec's way (over the first 9 digits with `check1` substituted as digit 9)
give the same final validity verdict: `validar_cpf` agrees with the
spec-side validator `is_valid_spec`. -/
theorem c2_code_spec_equivalence (s : String)
    (hlen : (limpar_cpf s).data.length = 11) :
    validar_cpf s = some (is_valid_spec s) := by
  rw [validar_cpf, is_valid_spec]
  exact core_spec _ hlen (limpar_all_digits s)

/-- Witness for C2 at the known-valid CPF `"52998224725"`. -/
theorem c2_code_spec_equivalence_witness :
    validar_cpf "52998224725" = some (is_valid_spec "52998224725") :=
  c2_code_spec_equivalence "52998224725" (by decide)

/-- Counterexample to C3 as stated: the CPF `"02874167800"` is accepted
by `validar_cpf`, yet the single-digit mutations at position 0
(`'0' → '1'`, giving `"12874167800"`) and at position 5 (`'1' → '3'`,
giving `"02874367800"`) are both still accepted, so only 9 of the 11
single-digit-change positions always flip the verdict to `false`,
not 10. -/
theorem c3_counterexample_two_weak_positions :
    validar_cpf "02874167800" = some true ∧
      validar_cpf "12874167800" = some true ∧
      validar_cpf "02874367800" = some true ∧
      "12874167800".data = "02874167800".data.set 0 '1' ∧
      "02874367800".data = "02874167800".data.set 5 '3' ∧
      "02874167800".data.getD 0 ' ' ≠ '1' ∧
      "02874167800".data.getD 5 ' ' ≠ '3' := by
  refine ⟨?_, ?_, ?_, ?_, ?_, ?_, ?_⟩ <;> decide

/-- C3 (amended): for every CPF accepted by `validar_cpf`, changing a
single digit to a different value is rejected in at least 9 of the 11
positions: every position other than 0 and 5 is always sensitive; in
particular any change confined to the check-digit positions 9 and 10
always flips the result to `false`. (Positions 0 and 5 can admit
surviving mutations: the weight of digit 0 in the second checksum is
11 ≡ 0 mod 11, and position 5 has a genuine modulo-11 collision.) -/
theorem c3_mutation_sensitivity (s : String) (i e : Nat)
    (hvalid : validar_cpf s = some true) (hi : i < 11) (hi0 : i ≠ 0) (hi5 : i ≠ 5)
    (he : e ≤ 9) (hdiff : e ≠ digitVal ((limpar_cpf s).data.getD i ' ')) :
    validar_cpf (String.mk ((limpar_cpf s).data.set i (Char.ofNat (48 + e)))) =
      some false := by
  have hdig := limpar_all_digits s
  have hlen : (limpar_cpf s).data.length = 11 := length_of_valid _ hvalid
  have hdig' := digits_set (limpar_cpf s).data i (Char.ofNat (48 + e)) hdig
    (isDigit_ofNat e he)
  show validar_core (limpar_cpf (String.mk _)).data = some false
  rw [show (limpar_cpf (String.mk ((limpar_cpf s).data.set i (Char.ofNat (48 + e))))).data
      = (limpar_cpf s).data.set i (Char.ofNat (48 + e))
    from List.filter_eq_self.mpr hdig']
  exact mutation_core _ i e hlen hdig hvalid hi hi0 hi5 he hdiff

/-- Witness for the amended C3: mutating position 1 of the valid CPF
`"52998224725"` from `'2'` to `'3'` is rejected. -/
theorem c3_mutation_sensitivity_witness :
    validar_cpf (String.mk ((limpar_cpf "52998224725").data.set 1 (Char.ofNat (48 + 3)))) =
      some false :=
  c3_mutation_sensitivity "52998224725" 1 3 (by decide) (by decide) (by decide)
    (by decide) (by decide) (by decide)
